import Mathlib

/-!
Verification of the idle-based network access control engine of
FireWall-gAmA (src/core/inactivity_monitor.py).

The engine keeps two pieces of process-wide state (lines 26-27):
a map `last_activity` from IP address to the timestamp it was last seen,
and a set `blocked_ips` of addresses already blocked.  We embed the map
as an association list with dictionary update semantics and the set as a
duplicate-free-by-insertion list.  Timestamps and the idle threshold are
integers (the Python code compares `(now - last).total_seconds()` with
the integral `IDLE_TIMEOUT`).

Side effects (desktop notification, audible alert, firewall command) are
reified as an `Action` trace; audit-log lines are reified as strings.
-/

namespace FirewallGama

/-- Configured idle threshold, line 18 of src/core/inactivity_monitor.py. -/
def IDLE_TIMEOUT : Int := 10

/-- Configured evaluation cadence, line 19. -/
def CHECK_INTERVAL : Int := 5

/-- Configured enforcement mode, line 22. -/
def AGGRESSIVE_MODE : Bool := true

/-- The module-level mutable state of the engine: `last_activity` (line 26,
IP to last-seen timestamp) and `blocked_ips` (line 27). -/
structure EngineState where
  last_activity : List (String × Int)
  blocked_ips : List String
deriving Repr, DecidableEq

/-- The observable side-effecting actions of one evaluation cycle: a desktop
notification (line 139), an audible alert (line 140), and the invocation of
the platform firewall block command for an address (lines 141-142, via
`block_ip`). -/
inductive Action where
  | notifyIdle (ip : String)
  | soundAlert (ip : String)
  | blockCmd (ip : String)
deriving Repr, DecidableEq

/-- The address an action is about. -/
def Action.addr : Action → String
  | Action.notifyIdle ip => ip
  | Action.soundAlert ip => ip
  | Action.blockCmd ip => ip

/-- Dictionary lookup in the `last_activity` association list. -/
def lookupLast : List (String × Int) → String → Option Int
  | [], _ => none
  | p :: rest, ip => if p.1 = ip then some p.2 else lookupLast rest ip

/-- Dictionary update `last_activity[ip] = t`: replaces the entry for `ip`
if present, otherwise appends a fresh entry. -/
def setLast : List (String × Int) → String → Int → List (String × Int)
  | [], ip, t => [(ip, t)]
  | p :: rest, ip, t => if p.1 = ip then (ip, t) :: rest else p :: setLast rest ip t

/-- Model of `packet_handler` (lines 77-81): for a captured frame carrying an IP
header (`some (src, dst)`), record both the source and the destination
address as seen `now`; a frame without an IP header (`none`) is skipped. -/
def packet_handler (pkt : Option (String × String)) (now : Int) (s : EngineState) : EngineState :=
  match pkt with
  | none => s
  | some (src, dst) =>
      { s with last_activity := setLast (setLast s.last_activity src now) dst now }

/-- Model of `block_ip` (lines 49-73): invoke the platform firewall command for `ip`.
The command invocation is reified as a `blockCmd` action; `cmdFails` models
whether the underlying subprocess raises.  The `try/except` of lines 52-73
catches any failure, so the function always returns — on success it logs
line 71, on failure line 73, with the address in either message. -/
def block_ip (cmdFails : Bool) (ip : String) : List Action × List String :=
  ([Action.blockCmd ip],
   if cmdFails then ["[ERROR] Failed to block " ++ ip]
   else ["Blocked IP " ++ ip ++ " at host firewall"])

/-- One iteration of the seeding loop of `idle_checker` (lines 122-130):
skip the broadcast address, and insert `last_activity[ip] = now` (with a
discovery log line) only when `ip` is not yet a key of the registry. -/
def seedStep (now : Int) (acc : EngineState × List String) (ip : String) :
    EngineState × List String :=
  if ip = "255.255.255.255" then acc
  else if (lookupLast acc.1.last_activity ip).isSome then acc
  else ({ acc.1 with last_activity := setLast acc.1.last_activity ip now },
        acc.2 ++ ["Discovered device " ++ ip ++ ", seeding timer"])

/-- The seeding loop of `idle_checker` (lines 122-130) over the list of
addresses returned by discovery. -/
def seedFold (now : Int) (acc : EngineState × List String) :
    List String → EngineState × List String
  | [] => acc
  | ip :: ips => seedFold now (seedStep now acc ip) ips

/-- Accumulator of the evaluation loop of `idle_checker` (lines 132-143):
the current blocked set, the side-effect actions emitted so far, and the
audit-log lines written so far. -/
structure EvalAcc where
  blocked : List String
  actions : List Action
  logs : List String
deriving Repr, DecidableEq

/-- One iteration of the evaluation loop of `idle_checker` (lines 132-143):
skip the broadcast address (133-134); compute `idle = now - last` (136);
when `idle >= IDLE_TIMEOUT` and the address is not yet blocked (137), write
the idle log line (138), emit notification (139) and sound (140), invoke
`block_ip` when aggressive (141-142), and add the address to the blocked
set (143). -/
def evalEntry (T : Int) (aggressive : Bool) (bf : String → Bool) (now : Int)
    (acc : EvalAcc) (e : String × Int) : EvalAcc :=
  if e.1 = "255.255.255.255" then acc
  else if now - e.2 ≥ T ∧ e.1 ∉ acc.blocked then
    { blocked := acc.blocked ++ [e.1]
      actions := acc.actions ++ [Action.notifyIdle e.1, Action.soundAlert e.1]
          ++ (if aggressive then (block_ip (bf e.1) e.1).1 else [])
      logs := acc.logs ++ ["Idle detected: " ++ e.1]
          ++ (if aggressive then (block_ip (bf e.1) e.1).2 else []) }
  else acc

/-- The evaluation loop of `idle_checker` (lines 132-143) over the snapshot
`list(last_activity.items())`. -/
def evalFold (T : Int) (aggressive : Bool) (bf : String → Bool) (now : Int)
    (acc : EvalAcc) : List (String × Int) → EvalAcc
  | [] => acc
  | e :: es => evalFold T aggressive bf now (evalEntry T aggressive bf now acc e) es

/-- One full cycle of the `idle_checker` loop body (lines 117-145):
take `now`, seed the addresses returned by `discover_devices`, then
evaluate every registry entry.  `bf ip` models whether the firewall
command for `ip` fails this cycle.  Returns the new engine state, the
emitted actions, and the audit-log lines. -/
def idle_checker_cycle (T : Int) (aggressive : Bool) (bf : String → Bool)
    (discovered : List String) (now : Int) (s : EngineState) :
    EngineState × List Action × List String :=
  let seeded := seedFold now (s, []) discovered
  let r := evalFold T aggressive bf now (EvalAcc.mk seeded.1.blocked_ips [] []) seeded.1.last_activity
  (EngineState.mk seeded.1.last_activity r.blocked, r.actions, seeded.2 ++ r.logs)

/-- Insertion into the `ips` set of `discover_devices`. -/
def addIp (acc : List String) (ip : String) : List String :=
  if ip ∈ acc then acc else acc ++ [ip]

/-- Whitespace split that drops empty tokens, like Python `str.split()`. -/
def splitWs (line : String) : List String :=
  (line.split (fun c => c.isWhitespace)).filter (fun t => t ≠ "")

/-- Consume one-or-more digits at the head of the character list
(the `\d+` of the pattern on lines 104 and 110). -/
def munchDigits : List Char → Option (List Char)
  | [] => none
  | c :: rest => if c.isDigit then some (rest.dropWhile Char.isDigit) else none

/-- Consume a literal dot (the `\.` of the pattern on lines 104 and 110). -/
def expectDot : List Char → Option (List Char)
  | [] => none
  | c :: rest => if c = '.' then some rest else none

/-- Python `re.match` of the pattern on lines 104 and 110: the string
starts with digits, dot, digits, dot, digits, dot, digits. -/
def matchesQuad (s : String) : Bool :=
  (((((((munchDigits s.data).bind expectDot).bind munchDigits).bind
      expectDot).bind munchDigits).bind expectDot).bind munchDigits).isSome

/-- The Windows parse loop of `discover_devices` (lines 97-105): strip each
line, skip blank lines and lines starting with Interface or Internet, take
the first whitespace token, keep it when it matches the dotted pattern. -/
def parseWindowsArp (output : String) : List String :=
  (output.splitOn "\n").foldl
    (fun ips rawLine =>
      let line := rawLine.trim
      if line = "" || line.startsWith "Interface" || line.startsWith "Internet" then ips
      else
        let ip := (splitWs line).headD ""
        if matchesQuad ip then addIp ips ip else ips)
    []

/-- The Linux/Mac parse loop of `discover_devices` (lines 107-111): split
each line on whitespace, keep the first token when present and matching
the dotted pattern. -/
def parseLinuxArp (output : String) : List String :=
  (output.splitOn "\n").foldl
    (fun ips line =>
      match splitWs line with
      | [] => ips
      | p0 :: _ => if matchesQuad p0 then addIp ips p0 else ips)
    []

/-- Model of `discover_devices` (lines 90-115): run the platform neighbor-table
query and parse its output into a set of addresses.  `queryResult` models
the `subprocess.check_output` call, the only raising operation inside the
`try` of lines 95-113: `Except.error e` is a raised exception, caught on
line 112 and logged on line 113, leaving the `ips` set empty.  Returns the
discovered addresses and the log lines of the call. -/
def discover_devices (os_type : String) (queryResult : Except String String) :
    List String × List String :=
  match queryResult with
  | Except.error e => ([], ["[ERROR] ARP discovery failed: " ++ e])
  | Except.ok output =>
      if os_type = "windows" then (parseWindowsArp output, [])
      else (parseLinuxArp output, [])

/-- The steps of the enforcement sequence for one idle-crossed address,
for the exception-aware model `enforcement_sequence`. -/
inductive ExcAct where
  | actLog
  | actNotify
  | actSound
  | actBlockCmd
deriving Repr, DecidableEq

/-- Exception-aware model of the enforcement sequence for one address
(lines 138-143).  `log` (lines 31-37) and the notification call (lines
39-40) have no exception handler, so a raise there propagates out of
`idle_checker`; `play_sound` (lines 42-47) and `block_ip` (lines 49-73)
catch their failures internally.  Returns the steps actually invoked, the
error log lines of the caught failures, and whether an exception escaped
the sequence. -/
def enforcement_sequence (aggressive : Bool) (ip : String)
    (logRaises notifyRaises soundRaises blockCmdFails : Bool) :
    List ExcAct × List String × Bool :=
  if logRaises then ([ExcAct.actLog], [], true)
  else if notifyRaises then ([ExcAct.actLog, ExcAct.actNotify], [], true)
  else
    let soundLogs := if soundRaises then ["[Sound Error]"] else []
    if aggressive then
      ([ExcAct.actLog, ExcAct.actNotify, ExcAct.actSound, ExcAct.actBlockCmd],
       soundLogs ++ (if blockCmdFails then ["[ERROR] Failed to block " ++ ip]
                     else ["Blocked IP " ++ ip ++ " at host firewall"]),
       false)
    else ([ExcAct.actLog, ExcAct.actNotify, ExcAct.actSound], soundLogs, false)

/-- Number of firewall-block invocations for address `A` in a trace. -/
def countBlock (A : String) (acts : List Action) : Nat :=
  acts.count (Action.blockCmd A)

/-- The actions of a trace that are about address `A`. -/
def actionsFor (A : String) (acts : List Action) : List Action :=
  acts.filter (fun a => Action.addr a = A)

/-! ### Lemmas about the association-list registry -/

lemma lookupLast_setLast_self (m : List (String × Int)) (ip : String) (t : Int) :
    lookupLast (setLast m ip t) ip = some t := by
  induction m with
  | nil => simp [setLast, lookupLast]
  | cons p rest ih =>
      by_cases h : p.1 = ip
      · simp [setLast, h, lookupLast]
      · simp [setLast, h, lookupLast, ih]

lemma lookupLast_setLast_ne (m : List (String × Int)) (ip x : String) (t : Int)
    (h : x ≠ ip) :
    lookupLast (setLast m ip t) x = lookupLast m x := by
  have hix : ¬ ip = x := fun hc => h hc.symm
  induction m with
  | nil => simp [setLast, lookupLast, hix]
  | cons p rest ih =>
      by_cases hp : p.1 = ip
      · rw [setLast, if_pos hp, lookupLast, if_neg hix, lookupLast,
          if_neg (by rw [hp]; exact hix)]
      · rw [setLast, if_neg hp, lookupLast, lookupLast, ih]

lemma setLast_of_lookupLast_none (m : List (String × Int)) (ip : String) (t : Int)
    (h : lookupLast m ip = none) :
    setLast m ip t = m ++ [(ip, t)] := by
  induction m with
  | nil => simp [setLast]
  | cons p rest ih =>
      by_cases hp : p.1 = ip
      · rw [lookupLast, if_pos hp] at h
        exact absurd h (by simp)
      · rw [lookupLast, if_neg hp] at h
        simp [setLast, hp, ih h]

lemma not_mem_of_lookupLast_none (m : List (String × Int)) (A : String) (t : Int)
    (h : lookupLast m A = none) :
    (A, t) ∉ m := by
  induction m with
  | nil => simp
  | cons p rest ih =>
      by_cases hp : p.1 = A
      · rw [lookupLast, if_pos hp] at h
        exact absurd h (by simp)
      · rw [lookupLast, if_neg hp] at h
        intro hmem
        rcases List.mem_cons.mp hmem with heq | hmem2
        · exact hp (by rw [← heq])
        · exact ih h hmem2

lemma lookupLast_isSome_of_mem (m : List (String × Int)) (A : String) (t : Int)
    (h : (A, t) ∈ m) :
    (lookupLast m A).isSome := by
  cases hlo : lookupLast m A with
  | none => exact absurd h (not_mem_of_lookupLast_none m A t hlo)
  | some v => rfl

/-! ### Lemmas about the seeding loop -/

lemma seedStep_blocked (now : Int) (acc : EngineState × List String) (ip : String) :
    (seedStep now acc ip).1.blocked_ips = acc.1.blocked_ips := by
  unfold seedStep
  split_ifs <;> rfl

lemma seedFold_blocked (now : Int) :
    ∀ (ips : List String) (acc : EngineState × List String),
      (seedFold now acc ips).1.blocked_ips = acc.1.blocked_ips := by
  intro ips
  induction ips with
  | nil => intro acc; rfl
  | cons ip rest ih =>
      intro acc
      rw [seedFold, ih, seedStep_blocked]

lemma seedStep_lookupLast_ne (now : Int) (acc : EngineState × List String)
    (ip x : String) (h : x ≠ ip) :
    lookupLast (seedStep now acc ip).1.last_activity x =
      lookupLast acc.1.last_activity x := by
  unfold seedStep
  split_ifs
  · rfl
  · rfl
  · exact lookupLast_setLast_ne _ _ _ _ h

lemma seedStep_lookupLast_some (now : Int) (acc : EngineState × List String)
    (ip x : String) (t : Int) (h : lookupLast acc.1.last_activity x = some t) :
    lookupLast (seedStep now acc ip).1.last_activity x = some t := by
  by_cases hx : x = ip
  · subst hx
    unfold seedStep
    split_ifs with h1 h2
    · exact h
    · exact h
    · rw [h] at h2
      exact absurd rfl h2
  · rw [seedStep_lookupLast_ne now acc ip x hx]
    exact h

lemma seedFold_lookupLast_some (now : Int) :
    ∀ (ips : List String) (acc : EngineState × List String) (x : String) (t : Int),
      lookupLast acc.1.last_activity x = some t →
      lookupLast (seedFold now acc ips).1.last_activity x = some t := by
  intro ips
  induction ips with
  | nil => intro acc x t h; exact h
  | cons ip rest ih =>
      intro acc x t h
      rw [seedFold]
      exact ih _ x t (seedStep_lookupLast_some now acc ip x t h)

lemma seedFold_lookupLast_absent (now : Int) :
    ∀ (ips : List String) (acc : EngineState × List String) (A : String),
      A ∈ ips → A ≠ "255.255.255.255" →
      lookupLast acc.1.last_activity A = none →
      lookupLast (seedFold now acc ips).1.last_activity A = some now := by
  intro ips
  induction ips with
  | nil => intro acc A hmem; exact absurd hmem (by simp)
  | cons ip rest ih =>
      intro acc A hmem hbc hnone
      by_cases hip : ip = A
      · subst hip
        rw [seedFold]
        have hstep : lookupLast (seedStep now acc ip).1.last_activity ip = some now := by
          unfold seedStep
          rw [if_neg hbc, if_neg (by rw [hnone]; exact fun hc => by simp at hc)]
          exact lookupLast_setLast_self _ _ _
        exact seedFold_lookupLast_some now rest _ ip now hstep
      · rw [seedFold]
        rcases List.mem_cons.mp hmem with heq | hrest
        · exact absurd heq.symm hip
        · exact ih _ A hrest hbc
            (by rw [seedStep_lookupLast_ne now acc ip A (fun hc => hip hc.symm)]; exact hnone)

lemma seedStep_mem (now : Int) (acc : EngineState × List String) (ip : String)
    (p : String × Int) (h : p ∈ acc.1.last_activity) :
    p ∈ (seedStep now acc ip).1.last_activity := by
  unfold seedStep
  split_ifs with h1 h2
  · exact h
  · exact h
  · show p ∈ setLast acc.1.last_activity ip now
    rw [setLast_of_lookupLast_none _ _ _ (Option.not_isSome_iff_eq_none.mp h2)]
    exact List.mem_append_left _ h

lemma seedFold_mem (now : Int) :
    ∀ (ips : List String) (acc : EngineState × List String) (p : String × Int),
      p ∈ acc.1.last_activity → p ∈ (seedFold now acc ips).1.last_activity := by
  intro ips
  induction ips with
  | nil => intro acc p h; exact h
  | cons ip rest ih =>
      intro acc p h
      rw [seedFold]
      exact ih _ p (seedStep_mem now acc ip p h)

lemma seedStep_entry_time (now : Int) (acc : EngineState × List String) (ip A : String)
    (hinv : ∀ t', (A, t') ∈ acc.1.last_activity → t' = now) :
    ∀ t', (A, t') ∈ (seedStep now acc ip).1.last_activity → t' = now := by
  intro t' hmem
  unfold seedStep at hmem
  split_ifs at hmem with h1 h2
  · exact hinv t' hmem
  · exact hinv t' hmem
  · rw [show ({ acc.1 with last_activity := setLast acc.1.last_activity ip now } : EngineState).last_activity
        = setLast acc.1.last_activity ip now from rfl] at hmem
    rw [setLast_of_lookupLast_none _ _ _ (Option.not_isSome_iff_eq_none.mp h2)] at hmem
    rcases List.mem_append.mp hmem with hold | hnew
    · exact hinv t' hold
    · simp at hnew
      exact hnew.2

lemma seedFold_entry_time (now : Int) :
    ∀ (ips : List String) (acc : EngineState × List String) (A : String),
      (∀ t', (A, t') ∈ acc.1.last_activity → t' = now) →
      ∀ t', (A, t') ∈ (seedFold now acc ips).1.last_activity → t' = now := by
  intro ips
  induction ips with
  | nil => intro acc A hinv; exact hinv
  | cons ip rest ih =>
      intro acc A hinv
      rw [seedFold]
      exact ih _ A (seedStep_entry_time now acc ip A hinv)

lemma seedFold_bc_none (now : Int) :
    ∀ (ips : List String) (acc : EngineState × List String),
      lookupLast acc.1.last_activity "255.255.255.255" = none →
      lookupLast (seedFold now acc ips).1.last_activity "255.255.255.255" = none := by
  intro ips
  induction ips with
  | nil => intro acc h; exact h
  | cons ip rest ih =>
      intro acc h
      rw [seedFold]
      by_cases hip : ip = "255.255.255.255"
      · refine ih _ ?_
        unfold seedStep
        rw [if_pos hip]
        exact h
      · refine ih _ ?_
        rw [seedStep_lookupLast_ne now acc ip _ (fun hc => hip hc.symm)]
        exact h

/-! ### Lemmas about the evaluation loop -/

lemma evalEntry_split (T : Int) (a : Bool) (bf : String → Bool) (now : Int)
    (acc : EvalAcc) (e : String × Int) :
    evalEntry T a bf now acc e = acc ∨
    (e.1 ≠ "255.255.255.255" ∧ now - e.2 ≥ T ∧ e.1 ∉ acc.blocked ∧
      evalEntry T a bf now acc e =
        EvalAcc.mk (acc.blocked ++ [e.1])
          (acc.actions ++ [Action.notifyIdle e.1, Action.soundAlert e.1]
            ++ (if a then [Action.blockCmd e.1] else []))
          (acc.logs ++ ["Idle detected: " ++ e.1]
            ++ (if a then (block_ip (bf e.1) e.1).2 else []))) := by
  unfold evalEntry
  by_cases h1 : e.1 = "255.255.255.255"
  · left
    rw [if_pos h1]
  · by_cases h2 : now - e.2 ≥ T ∧ e.1 ∉ acc.blocked
    · right
      refine ⟨h1, h2.1, h2.2, ?_⟩
      rw [if_neg h1, if_pos h2]
      rfl
    · left
      rw [if_neg h1, if_neg h2]

lemma evalEntry_blocked_mono (T : Int) (a : Bool) (bf : String → Bool) (now : Int)
    (acc : EvalAcc) (e : String × Int) (A : String) (h : A ∈ acc.blocked) :
    A ∈ (evalEntry T a bf now acc e).blocked := by
  rcases evalEntry_split T a bf now acc e with heq | ⟨_, _, _, heq⟩
  · rw [heq]; exact h
  · rw [heq]; exact List.mem_append_left _ h

lemma evalFold_blocked_mono (T : Int) (a : Bool) (bf : String → Bool) (now : Int) :
    ∀ (es : List (String × Int)) (acc : EvalAcc) (A : String),
      A ∈ acc.blocked → A ∈ (evalFold T a bf now acc es).blocked := by
  intro es
  induction es with
  | nil => intro acc A h; exact h
  | cons e rest ih =>
      intro acc A h
      rw [evalFold]
      exact ih _ A (evalEntry_blocked_mono T a bf now acc e A h)

lemma countBlock_append (A : String) (l1 l2 : List Action) :
    countBlock A (l1 ++ l2) = countBlock A l1 + countBlock A l2 := by
  simp [countBlock, List.count_append]

lemma countBlock_pair (A x : String) :
    countBlock A [Action.notifyIdle x, Action.soundAlert x] = 0 := by
  simp [countBlock, List.count_cons, List.count_nil]

lemma countBlock_ite (A x : String) (a : Bool) (hx : x ≠ A) :
    countBlock A (if a then [Action.blockCmd x] else []) = 0 := by
  cases a <;> simp [countBlock, List.count_cons, List.count_nil, hx]

lemma countBlock_ite_self (A : String) :
    countBlock A (if true then [Action.blockCmd A] else []) = 1 := by
  simp [countBlock, List.count_cons, List.count_nil]

lemma evalFold_gate (T : Int) (a : Bool) (bf : String → Bool) (now : Int) :
    ∀ (es : List (String × Int)) (acc : EvalAcc) (A : String),
      A ∈ acc.blocked →
      countBlock A (evalFold T a bf now acc es).actions = countBlock A acc.actions := by
  intro es
  induction es with
  | nil => intro acc A _; rfl
  | cons e rest ih =>
      intro acc A h
      rw [evalFold]
      rcases evalEntry_split T a bf now acc e with heq | ⟨_, _, hnb, heq⟩
      · rw [heq]; exact ih _ A h
      · have hx : e.1 ≠ A := fun hc => hnb (hc ▸ h)
        rw [heq, ih _ A (List.mem_append_left _ h)]
        show countBlock A ((acc.actions ++ [Action.notifyIdle e.1, Action.soundAlert e.1])
          ++ (if a then [Action.blockCmd e.1] else [])) = countBlock A acc.actions
        rw [countBlock_append, countBlock_append, countBlock_pair, countBlock_ite A e.1 a hx]
        omega


lemma evalEntry_fire (T : Int) (a : Bool) (bf : String → Bool) (now : Int)
    (acc : EvalAcc) (e : String × Int) (h1 : e.1 ≠ "255.255.255.255")
    (h2 : now - e.2 ≥ T) (h3 : e.1 ∉ acc.blocked) :
    evalEntry T a bf now acc e =
      EvalAcc.mk (acc.blocked ++ [e.1])
        (acc.actions ++ [Action.notifyIdle e.1, Action.soundAlert e.1]
          ++ (if a then [Action.blockCmd e.1] else []))
        (acc.logs ++ ["Idle detected: " ++ e.1]
          ++ (if a then (block_ip (bf e.1) e.1).2 else [])) := by
  unfold evalEntry
  rw [if_neg h1, if_pos (And.intro h2 h3)]
  rfl

lemma evalEntry_nofire (T : Int) (a : Bool) (bf : String → Bool) (now : Int)
    (acc : EvalAcc) (e : String × Int)
    (h : ¬(now - e.2 ≥ T ∧ e.1 ∉ acc.blocked)) :
    evalEntry T a bf now acc e = acc := by
  unfold evalEntry
  by_cases h1 : e.1 = "255.255.255.255"
  · rw [if_pos h1]
  · rw [if_neg h1, if_neg h]

lemma evalFold_crossing_blocked (T : Int) (a : Bool) (bf : String → Bool) (now : Int) :
    ∀ (es : List (String × Int)) (acc : EvalAcc) (A : String) (t : Int),
      (A, t) ∈ es → A ≠ "255.255.255.255" → now - t ≥ T →
      A ∈ (evalFold T a bf now acc es).blocked := by
  intro es
  induction es with
  | nil => intro acc A t hmem; exact absurd hmem (by simp)
  | cons e rest ih =>
      intro acc A t hmem hbc hcr
      rw [evalFold]
      rcases List.mem_cons.mp hmem with heq | hrest
      · by_cases hb : A ∈ acc.blocked
        · exact evalFold_blocked_mono T a bf now rest _ A
            (evalEntry_blocked_mono T a bf now acc e A hb)
        · have h1 : e.1 ≠ "255.255.255.255" := by rw [← heq]; exact hbc
          have h2 : now - e.2 ≥ T := by rw [← heq]; exact hcr
          have h3 : e.1 ∉ acc.blocked := by rw [← heq]; exact hb
          rw [evalEntry_fire T a bf now acc e h1 h2 h3]
          refine evalFold_blocked_mono T a bf now rest _ A ?_
          refine List.mem_append_right _ ?_
          rw [← heq]
          simp
      · exact ih _ A t hrest hbc hcr

/-- The at-most-once invariant of the evaluation loop, for aggressive mode:
either the address is not yet blocked and no firewall-block invocation for
it has been emitted, or it is blocked and exactly one has been. -/
def Rinv (A : String) (acc : EvalAcc) : Prop :=
  (A ∉ acc.blocked ∧ countBlock A acc.actions = 0) ∨
  (A ∈ acc.blocked ∧ countBlock A acc.actions = 1)

lemma evalEntry_Rinv (T : Int) (bf : String → Bool) (now : Int) (acc : EvalAcc)
    (e : String × Int) (A : String) (h : Rinv A acc) :
    Rinv A (evalEntry T true bf now acc e) := by
  rcases evalEntry_split T true bf now acc e with heq | ⟨hbc, hcr, hnb, heq⟩
  · rw [heq]; exact h
  · rw [heq]
    by_cases hx : e.1 = A
    · rcases h with ⟨hnb2, hc0⟩ | ⟨hb, _⟩
      · right
        constructor
        · show A ∈ acc.blocked ++ [e.1]
          exact List.mem_append_right _ (by simp [hx])
        · show countBlock A ((acc.actions ++ [Action.notifyIdle e.1, Action.soundAlert e.1])
            ++ (if true then [Action.blockCmd e.1] else [])) = 1
          rw [hx, countBlock_append, countBlock_append, countBlock_pair,
            countBlock_ite_self, hc0]
      · rw [hx] at hnb
        exact absurd hb hnb
    · have hcount : countBlock A ((acc.actions ++ [Action.notifyIdle e.1, Action.soundAlert e.1])
          ++ (if true then [Action.blockCmd e.1] else [])) = countBlock A acc.actions := by
        rw [countBlock_append, countBlock_append, countBlock_pair, countBlock_ite A e.1 true hx]
        omega
      have hmem : A ∈ acc.blocked ++ [e.1] ↔ A ∈ acc.blocked := by
        constructor
        · intro hm
          rcases List.mem_append.mp hm with hm | hm
          · exact hm
          · simp at hm
            exact absurd hm.symm hx
        · exact fun hm => List.mem_append_left _ hm
      rcases h with ⟨hnb2, hc0⟩ | ⟨hb, hc1⟩
      · left
        exact ⟨fun hm => hnb2 (hmem.mp hm), by rw [hcount, hc0]⟩
      · right
        exact ⟨hmem.mpr hb, by rw [hcount, hc1]⟩

lemma evalFold_Rinv (T : Int) (bf : String → Bool) (now : Int) (A : String) :
    ∀ (es : List (String × Int)) (acc : EvalAcc),
      Rinv A acc → Rinv A (evalFold T true bf now acc es) := by
  intro es
  induction es with
  | nil => intro acc h; exact h
  | cons e rest ih =>
      intro acc h
      rw [evalFold]
      exact ih _ (evalEntry_Rinv T bf now acc e A h)


lemma actionsFor_append (A : String) (l1 l2 : List Action) :
    actionsFor A (l1 ++ l2) = actionsFor A l1 ++ actionsFor A l2 := by
  simp [actionsFor, List.filter_append]

lemma actionsFor_pair_ne (A x : String) (hx : x ≠ A) :
    actionsFor A [Action.notifyIdle x, Action.soundAlert x] = [] := by
  simp [actionsFor, Action.addr, hx]

lemma actionsFor_ite_ne (A x : String) (a : Bool) (hx : x ≠ A) :
    actionsFor A (if a then [Action.blockCmd x] else []) = [] := by
  cases a <;> simp [actionsFor, Action.addr, hx]

lemma evalFold_noCross (T : Int) (a : Bool) (bf : String → Bool) (now : Int) :
    ∀ (es : List (String × Int)) (acc : EvalAcc) (A : String),
      (∀ t', (A, t') ∈ es → ¬(now - t' ≥ T)) → A ∉ acc.blocked →
      A ∉ (evalFold T a bf now acc es).blocked ∧
      actionsFor A (evalFold T a bf now acc es).actions = actionsFor A acc.actions := by
  intro es
  induction es with
  | nil => intro acc A _ hnb; exact ⟨hnb, rfl⟩
  | cons e rest ih =>
      intro acc A hnc hnb
      rw [evalFold]
      by_cases hx : e.1 = A
      · have hnofire : ¬(now - e.2 ≥ T ∧ e.1 ∉ acc.blocked) := by
          intro hcond
          exact hnc e.2 (by rw [← hx]; exact List.mem_cons_self e rest) hcond.1
        rw [evalEntry_nofire T a bf now acc e hnofire]
        exact ih acc A (fun t' hm hcr => hnc t' (List.mem_cons_of_mem e hm) hcr) hnb
      · rcases evalEntry_split T a bf now acc e with heq | ⟨hbc, hcr, hnbe, heq⟩
        · rw [heq]
          exact ih acc A (fun t' hm hcr => hnc t' (List.mem_cons_of_mem e hm) hcr) hnb
        · rw [heq]
          have hnb2 : A ∉ acc.blocked ++ [e.1] := by
            intro hm
            rcases List.mem_append.mp hm with hm | hm
            · exact hnb hm
            · simp at hm
              exact hx hm.symm
          have := ih (EvalAcc.mk (acc.blocked ++ [e.1])
            (acc.actions ++ [Action.notifyIdle e.1, Action.soundAlert e.1]
              ++ (if a then [Action.blockCmd e.1] else []))
            (acc.logs ++ ["Idle detected: " ++ e.1]
              ++ (if a then (block_ip (bf e.1) e.1).2 else []))) A
            (fun t' hm hcr => hnc t' (List.mem_cons_of_mem e hm) hcr) hnb2
          refine ⟨this.1, ?_⟩
          rw [this.2]
          show actionsFor A ((acc.actions ++ [Action.notifyIdle e.1, Action.soundAlert e.1])
            ++ (if a then [Action.blockCmd e.1] else [])) = actionsFor A acc.actions
          rw [actionsFor_append, actionsFor_append, actionsFor_pair_ne A e.1 hx,
            actionsFor_ite_ne A e.1 a hx]
          simp

lemma evalFold_bc_not_blocked (T : Int) (a : Bool) (bf : String → Bool) (now : Int) :
    ∀ (es : List (String × Int)) (acc : EvalAcc),
      "255.255.255.255" ∉ acc.blocked →
      "255.255.255.255" ∉ (evalFold T a bf now acc es).blocked := by
  intro es
  induction es with
  | nil => intro acc h; exact h
  | cons e rest ih =>
      intro acc h
      rw [evalFold]
      refine ih _ ?_
      rcases evalEntry_split T a bf now acc e with heq | ⟨hbc, _, _, heq⟩
      · rw [heq]; exact h
      · rw [heq]
        intro hm
        rcases List.mem_append.mp hm with hm | hm
        · exact h hm
        · simp at hm
          exact hbc hm.symm

lemma evalFold_bc_no_blockCmd (T : Int) (a : Bool) (bf : String → Bool) (now : Int) :
    ∀ (es : List (String × Int)) (acc : EvalAcc),
      Action.blockCmd "255.255.255.255" ∉ acc.actions →
      Action.blockCmd "255.255.255.255" ∉ (evalFold T a bf now acc es).actions := by
  intro es
  induction es with
  | nil => intro acc h; exact h
  | cons e rest ih =>
      intro acc h
      rw [evalFold]
      refine ih _ ?_
      rcases evalEntry_split T a bf now acc e with heq | ⟨hbc, _, _, heq⟩
      · rw [heq]; exact h
      · rw [heq]
        intro hm
        show False
        rcases List.mem_append.mp hm with hm | hm
        · rcases List.mem_append.mp hm with hm | hm
          · exact h hm
          · simp at hm
        · rcases a with _ | _
          · simp at hm
          · simp at hm
            exact hbc hm.symm

lemma evalEntry_bf_inv (T : Int) (a : Bool) (bf bf2 : String → Bool) (now : Int)
    (acc acc2 : EvalAcc) (e : String × Int)
    (hb : acc.blocked = acc2.blocked) (ha : acc.actions = acc2.actions) :
    (evalEntry T a bf now acc e).blocked = (evalEntry T a bf2 now acc2 e).blocked ∧
    (evalEntry T a bf now acc e).actions = (evalEntry T a bf2 now acc2 e).actions := by
  unfold evalEntry
  by_cases h1 : e.1 = "255.255.255.255"
  · rw [if_pos h1, if_pos h1]
    exact ⟨hb, ha⟩
  · by_cases h2 : now - e.2 ≥ T ∧ e.1 ∉ acc.blocked
    · have h2x : now - e.2 ≥ T ∧ e.1 ∉ acc2.blocked := ⟨h2.1, hb ▸ h2.2⟩
      rw [if_neg h1, if_neg h1, if_pos h2, if_pos h2x]
      constructor
      · show acc.blocked ++ [e.1] = acc2.blocked ++ [e.1]
        rw [hb]
      · show (acc.actions ++ [Action.notifyIdle e.1, Action.soundAlert e.1])
            ++ (if a then (block_ip (bf e.1) e.1).1 else [])
          = (acc2.actions ++ [Action.notifyIdle e.1, Action.soundAlert e.1])
            ++ (if a then (block_ip (bf2 e.1) e.1).1 else [])
        rw [ha]
        rfl
    · have h2x : ¬(now - e.2 ≥ T ∧ e.1 ∉ acc2.blocked) := fun hc => h2 ⟨hc.1, hb ▸ hc.2⟩
      rw [if_neg h1, if_neg h1, if_neg h2, if_neg h2x]
      exact ⟨hb, ha⟩

lemma evalFold_bf_inv (T : Int) (a : Bool) (bf bf2 : String → Bool) (now : Int) :
    ∀ (es : List (String × Int)) (acc acc2 : EvalAcc),
      acc.blocked = acc2.blocked → acc.actions = acc2.actions →
      (evalFold T a bf now acc es).blocked = (evalFold T a bf2 now acc2 es).blocked ∧
      (evalFold T a bf now acc es).actions = (evalFold T a bf2 now acc2 es).actions := by
  intro es
  induction es with
  | nil => intro acc acc2 hb ha; exact ⟨hb, ha⟩
  | cons e rest ih =>
      intro acc acc2 hb ha
      rw [evalFold, evalFold]
      have hstep := evalEntry_bf_inv T a bf bf2 now acc acc2 e hb ha
      exact ih _ _ hstep.1 hstep.2

lemma evalEntry_err_logged (T : Int) (bf : String → Bool) (now : Int) (A : String)
    (hbf : bf A = true) (acc : EvalAcc) (e : String × Int)
    (hP : A ∈ acc.blocked → ("[ERROR] Failed to block " ++ A) ∈ acc.logs) :
    A ∈ (evalEntry T true bf now acc e).blocked →
    ("[ERROR] Failed to block " ++ A) ∈ (evalEntry T true bf now acc e).logs := by
  rcases evalEntry_split T true bf now acc e with heq | ⟨hbc, hcr, hnbe, heq⟩
  · rw [heq]; exact hP
  · rw [heq]
    intro hm
    rcases List.mem_append.mp hm with hm | hm
    · show ("[ERROR] Failed to block " ++ A) ∈ (acc.logs ++ ["Idle detected: " ++ e.1])
        ++ (if true then (block_ip (bf e.1) e.1).2 else [])
      exact List.mem_append_left _ (List.mem_append_left _ (hP hm))
    · simp at hm
      show ("[ERROR] Failed to block " ++ A) ∈ (acc.logs ++ ["Idle detected: " ++ e.1])
        ++ (if true then (block_ip (bf e.1) e.1).2 else [])
      refine List.mem_append_right _ ?_
      rw [← hm]
      simp [block_ip, hbf]

lemma evalFold_err_logged (T : Int) (bf : String → Bool) (now : Int) (A : String)
    (hbf : bf A = true) :
    ∀ (es : List (String × Int)) (acc : EvalAcc),
      (A ∈ acc.blocked → ("[ERROR] Failed to block " ++ A) ∈ acc.logs) →
      A ∈ (evalFold T true bf now acc es).blocked →
      ("[ERROR] Failed to block " ++ A) ∈ (evalFold T true bf now acc es).logs := by
  intro es
  induction es with
  | nil => intro acc hP; exact hP
  | cons e rest ih =>
      intro acc hP
      rw [evalFold]
      exact ih _ (evalEntry_err_logged T bf now A hbf acc e hP)


/-! ### Projections of one evaluation cycle -/

lemma cycle_last (T : Int) (a : Bool) (bf : String → Bool) (d : List String)
    (now : Int) (s : EngineState) :
    (idle_checker_cycle T a bf d now s).1.last_activity =
      (seedFold now (s, []) d).1.last_activity := rfl

lemma cycle_blocked (T : Int) (a : Bool) (bf : String → Bool) (d : List String)
    (now : Int) (s : EngineState) :
    (idle_checker_cycle T a bf d now s).1.blocked_ips =
      (evalFold T a bf now (EvalAcc.mk (seedFold now (s, []) d).1.blocked_ips [] [])
        (seedFold now (s, []) d).1.last_activity).blocked := rfl

lemma cycle_actions (T : Int) (a : Bool) (bf : String → Bool) (d : List String)
    (now : Int) (s : EngineState) :
    (idle_checker_cycle T a bf d now s).2.1 =
      (evalFold T a bf now (EvalAcc.mk (seedFold now (s, []) d).1.blocked_ips [] [])
        (seedFold now (s, []) d).1.last_activity).actions := rfl

lemma cycle_logs (T : Int) (a : Bool) (bf : String → Bool) (d : List String)
    (now : Int) (s : EngineState) :
    (idle_checker_cycle T a bf d now s).2.2 =
      (seedFold now (s, []) d).2 ++
      (evalFold T a bf now (EvalAcc.mk (seedFold now (s, []) d).1.blocked_ips [] [])
        (seedFold now (s, []) d).1.last_activity).logs := rfl

/-! ### The claims -/

/-- C8: when the neighbor-table query fails, `discover_devices` logs the failure
once for that cycle and returns the empty candidate set; being a total function
of the query result, the failure never propagates out of the call and never
terminates the evaluation loop. -/
theorem C8_discovery_failure_nonfatal (os_type : String) (e : String) :
    discover_devices os_type (Except.error e) =
      ([], ["[ERROR] ARP discovery failed: " ++ e]) := rfl

/-- C9: the discovery step leaves the blocked set untouched, leaves the
`last_seen` timestamp of every address already present in the registry
unchanged, and gives every absent non-broadcast discovered address a new
record with `last_seen` equal to the current cycle time. -/
theorem C9_seed_only_absent (d : List String) (now : Int) (s : EngineState) :
    (seedFold now (s, []) d).1.blocked_ips = s.blocked_ips ∧
    (∀ (A : String) (t : Int), lookupLast s.last_activity A = some t →
      lookupLast (seedFold now (s, []) d).1.last_activity A = some t) ∧
    (∀ A : String, A ∈ d → A ≠ "255.255.255.255" →
      lookupLast s.last_activity A = none →
      lookupLast (seedFold now (s, []) d).1.last_activity A = some now) :=
  ⟨seedFold_blocked now d (s, []),
   fun A t h => seedFold_lookupLast_some now d (s, []) A t h,
   fun A hd hbc h => seedFold_lookupLast_absent now d (s, []) A hd hbc h⟩

/-- Witness for C9 at a concrete registry: a present address keeps its
timestamp, an absent one is seeded with the cycle time. -/
theorem C9_witness :
    lookupLast (seedFold 7 (EngineState.mk [("10.0.0.5", 3)] [], [])
      ["10.0.0.5", "10.0.0.9"]).1.last_activity "10.0.0.5" = some 3 ∧
    lookupLast (seedFold 7 (EngineState.mk [("10.0.0.5", 3)] [], [])
      ["10.0.0.5", "10.0.0.9"]).1.last_activity "10.0.0.9" = some 7 :=
  ⟨(C9_seed_only_absent ["10.0.0.5", "10.0.0.9"] 7 (EngineState.mk [("10.0.0.5", 3)] [])).2.1
      "10.0.0.5" 3 (by decide),
   (C9_seed_only_absent ["10.0.0.5", "10.0.0.9"] 7 (EngineState.mk [("10.0.0.5", 3)] [])).2.2
      "10.0.0.9" (by decide) (by decide) (by decide)⟩

/-- C2: blocking is terminal: an address in the blocked set is still in the
blocked set after any packet observation and after any further evaluation
cycle (which includes neighbor discovery, idle evaluation and enforcement). -/
theorem C2_blocked_terminal (A : String) (s : EngineState) (hA : A ∈ s.blocked_ips) :
    (∀ (pkt : Option (String × String)) (now : Int),
      A ∈ (packet_handler pkt now s).blocked_ips) ∧
    (∀ (T : Int) (a : Bool) (bf : String → Bool) (d : List String) (now : Int),
      A ∈ (idle_checker_cycle T a bf d now s).1.blocked_ips) := by
  constructor
  · intro pkt now
    cases pkt with
    | none => exact hA
    | some p => exact hA
  · intro T a bf d now
    rw [cycle_blocked]
    refine evalFold_blocked_mono T a bf now _ _ A ?_
    show A ∈ (seedFold now (s, []) d).1.blocked_ips
    rw [seedFold_blocked]
    exact hA

/-- Witness for C2: a blocked address survives a frame observation and a
full evaluation cycle. -/
theorem C2_witness :
    "10.0.0.5" ∈ (packet_handler (some ("1.1.1.1", "2.2.2.2")) 3
      (EngineState.mk [] ["10.0.0.5"])).blocked_ips ∧
    "10.0.0.5" ∈ (idle_checker_cycle 10 true (fun _ => false) ["3.3.3.3"] 9
      (EngineState.mk [] ["10.0.0.5"])).1.blocked_ips :=
  ⟨(C2_blocked_terminal "10.0.0.5" (EngineState.mk [] ["10.0.0.5"]) (by decide)).1
      (some ("1.1.1.1", "2.2.2.2")) 3,
   (C2_blocked_terminal "10.0.0.5" (EngineState.mk [] ["10.0.0.5"]) (by decide)).2
      10 true (fun _ => false) ["3.3.3.3"] 9⟩

/-- C10: the evaluation loop always skips the broadcast address, even when it
is present in the registry: it is never added to the blocked set, and the
firewall block command is never invoked with it. -/
theorem C10_broadcast_never_enforced
    (T : Int) (a : Bool) (bf : String → Bool) (d : List String) (now : Int)
    (s : EngineState) (h : "255.255.255.255" ∉ s.blocked_ips) :
    "255.255.255.255" ∉ (idle_checker_cycle T a bf d now s).1.blocked_ips ∧
    Action.blockCmd "255.255.255.255" ∉ (idle_checker_cycle T a bf d now s).2.1 := by
  constructor
  · rw [cycle_blocked]
    refine evalFold_bc_not_blocked T a bf now _ _ ?_
    show "255.255.255.255" ∉ (seedFold now (s, []) d).1.blocked_ips
    rw [seedFold_blocked]
    exact h
  · rw [cycle_actions]
    refine evalFold_bc_no_blockCmd T a bf now _ _ ?_
    simp

/-- Witness for C10: a cycle over a registry that contains the broadcast
address (seeded by the packet handler) and an idle address blocks only the
idle address, never the broadcast address. -/
theorem C10_witness :
    "255.255.255.255" ∉ (idle_checker_cycle 10 true (fun _ => false) [] 100
      (EngineState.mk [("255.255.255.255", 0), ("10.0.0.5", 0)] [])).1.blocked_ips ∧
    Action.blockCmd "255.255.255.255" ∉ (idle_checker_cycle 10 true (fun _ => false) [] 100
      (EngineState.mk [("255.255.255.255", 0), ("10.0.0.5", 0)] [])).2.1 :=
  C10_broadcast_never_enforced 10 true (fun _ => false) [] 100
    (EngineState.mk [("255.255.255.255", 0), ("10.0.0.5", 0)] []) (by decide)

/-- C4 counterexample: the claim "the broadcast address is never inserted into
the activity registry, no matter how many captured frames carry it as source
or destination" is false: `packet_handler` applies no broadcast filter, so a
single captured frame with destination 255.255.255.255 inserts it. -/
theorem C4_counterexample :
    lookupLast (packet_handler (some ("10.0.0.7", "255.255.255.255")) 5
      (EngineState.mk [] [])).last_activity "255.255.255.255" = some 5 := by decide

/-- C4 amended: the broadcast address is never inserted into the registry by
the discovery/seeding path of an evaluation cycle, no matter how often it
appears in discovery output (frames handled by `packet_handler` do insert it). -/
theorem C4_amended_no_seed_of_broadcast
    (T : Int) (a : Bool) (bf : String → Bool) (d : List String) (now : Int)
    (s : EngineState)
    (h : lookupLast s.last_activity "255.255.255.255" = none) :
    lookupLast (idle_checker_cycle T a bf d now s).1.last_activity
      "255.255.255.255" = none := by
  rw [cycle_last]
  exact seedFold_bc_none now d (s, []) h

/-- Witness for the amended C4: discovery output consisting of the broadcast
address twice seeds nothing. -/
theorem C4_amended_witness :
    lookupLast (idle_checker_cycle 10 true (fun _ => false)
      ["255.255.255.255", "255.255.255.255"] 5
      (EngineState.mk [("10.0.0.5", 1)] [])).1.last_activity
      "255.255.255.255" = none :=
  C4_amended_no_seed_of_broadcast 10 true (fun _ => false)
    ["255.255.255.255", "255.255.255.255"] 5
    (EngineState.mk [("10.0.0.5", 1)] []) (by decide)

/-- C7 counterexample: the claim that a failure raised by the notification
action does not prevent the firewall block is false: the notification call
(lines 39-40) has no exception handler, so when it raises, the sequence
aborts before `block_ip` is invoked. -/
theorem C7_counterexample :
    ExcAct.actBlockCmd ∉ (enforcement_sequence true "10.0.0.5" false true false false).1 ∧
    (enforcement_sequence true "10.0.0.5" false true false false).2.2 = true := by decide

/-- C7 amended: the audible-alert and firewall-block actions are independently
failure-tolerant — their failures are caught locally, so for any combination
of sound and firewall failures all four actions are invoked and no exception
escapes; a failure raised by the audit-log or notification action, however,
aborts the sequence before the firewall block. -/
theorem C7_amended_sound_block_isolated (ip : String) (soundRaises blockCmdFails : Bool) :
    (enforcement_sequence true ip false false soundRaises blockCmdFails).1 =
      [ExcAct.actLog, ExcAct.actNotify, ExcAct.actSound, ExcAct.actBlockCmd] ∧
    (enforcement_sequence true ip false false soundRaises blockCmdFails).2.2 = false := by
  cases soundRaises <;> cases blockCmdFails <;>
    simp [enforcement_sequence]


lemma cycle_state (T : Int) (a : Bool) (bf : String → Bool) (d : List String)
    (now : Int) (s : EngineState) :
    (idle_checker_cycle T a bf d now s).1 =
      EngineState.mk (seedFold now (s, []) d).1.last_activity
        (evalFold T a bf now (EvalAcc.mk (seedFold now (s, []) d).1.blocked_ips [] [])
          (seedFold now (s, []) d).1.last_activity).blocked := rfl

/-- C1: in the first cycle in which an unblocked address has been idle at
least the threshold, exactly one firewall-block action is emitted for it and
it enters the blocked set; in any cycle starting from a state in which the
address is already blocked, the gate of line 137 fails and no block action
is emitted for it, and it remains blocked. -/
theorem C1_block_exactly_once
    (T now t : Int) (A : String) (s : EngineState) (d : List String) (bf : String → Bool)
    (hA : A ≠ "255.255.255.255")
    (hmem : (A, t) ∈ s.last_activity)
    (hidle : now - t ≥ T)
    (hnb : A ∉ s.blocked_ips) :
    countBlock A (idle_checker_cycle T true bf d now s).2.1 = 1 ∧
    A ∈ (idle_checker_cycle T true bf d now s).1.blocked_ips ∧
    (∀ (T2 now2 : Int) (d2 : List String) (bf2 : String → Bool) (s2 : EngineState),
      A ∈ s2.blocked_ips →
      countBlock A (idle_checker_cycle T2 true bf2 d2 now2 s2).2.1 = 0 ∧
      A ∈ (idle_checker_cycle T2 true bf2 d2 now2 s2).1.blocked_ips) := by
  have hmem2 : (A, t) ∈ (seedFold now (s, []) d).1.last_activity :=
    seedFold_mem now d (s, []) (A, t) hmem
  have hnb2 : A ∉ (EvalAcc.mk (seedFold now (s, []) d).1.blocked_ips ([] : List Action)
      ([] : List String)).blocked := by
    show A ∉ (seedFold now (s, []) d).1.blocked_ips
    rw [seedFold_blocked]
    exact hnb
  have hrinv := evalFold_Rinv T bf now A (seedFold now (s, []) d).1.last_activity
    (EvalAcc.mk (seedFold now (s, []) d).1.blocked_ips [] [])
    (Or.inl ⟨hnb2, rfl⟩)
  have hin := evalFold_crossing_blocked T true bf now (seedFold now (s, []) d).1.last_activity
    (EvalAcc.mk (seedFold now (s, []) d).1.blocked_ips [] []) A t hmem2 hA hidle
  refine ⟨?_, ?_, ?_⟩
  · rw [cycle_actions]
    rcases hrinv with ⟨hno, _⟩ | ⟨_, hc1⟩
    · exact absurd hin hno
    · exact hc1
  · rw [cycle_blocked]
    exact hin
  · intro T2 now2 d2 bf2 s2 hb2
    have hstart : A ∈ (EvalAcc.mk (seedFold now2 (s2, []) d2).1.blocked_ips ([] : List Action)
        ([] : List String)).blocked := by
      show A ∈ (seedFold now2 (s2, []) d2).1.blocked_ips
      rw [seedFold_blocked]
      exact hb2
    constructor
    · rw [cycle_actions]
      exact (evalFold_gate T2 true bf2 now2 _ _ A hstart).trans rfl
    · rw [cycle_blocked]
      exact evalFold_blocked_mono T2 true bf2 now2 _ _ A hstart

/-- Witness for C1: address 10.0.0.5, idle 15s against a 10s threshold, gets
exactly one block action; a later cycle from the blocked state emits none. -/
theorem C1_witness :
    countBlock "10.0.0.5" (idle_checker_cycle 10 true (fun _ => false) [] 20
      (EngineState.mk [("10.0.0.5", 5)] [])).2.1 = 1 ∧
    countBlock "10.0.0.5" (idle_checker_cycle 10 true (fun _ => false) [] 25
      (EngineState.mk [("10.0.0.5", 5)] ["10.0.0.5"])).2.1 = 0 :=
  have h := C1_block_exactly_once 10 20 5 "10.0.0.5" (EngineState.mk [("10.0.0.5", 5)] [])
    [] (fun _ => false) (by decide) (by decide) (by decide) (by decide)
  ⟨h.1, (h.2.2 10 25 [] (fun _ => false)
    (EngineState.mk [("10.0.0.5", 5)] ["10.0.0.5"]) (by decide)).1⟩

/-- C3: the idle-threshold boundary is inclusive: an unblocked address whose
`last_seen` equals `now - T` exactly is classified as crossed and gets one
enforcement action, while any strictly later `last_seen` (idle duration
strictly below T) triggers no action at all. -/
theorem C3_idle_boundary (T now : Int) (A : String) (hA : A ≠ "255.255.255.255") :
    (countBlock A (idle_checker_cycle T true (fun _ => false) [] now
        (EngineState.mk [(A, now - T)] [])).2.1 = 1 ∧
      A ∈ (idle_checker_cycle T true (fun _ => false) [] now
        (EngineState.mk [(A, now - T)] [])).1.blocked_ips) ∧
    (∀ last : Int, now - T < last →
      (idle_checker_cycle T true (fun _ => false) [] now
        (EngineState.mk [(A, last)] [])).2.1 = [] ∧
      (idle_checker_cycle T true (fun _ => false) [] now
        (EngineState.mk [(A, last)] [])).1.blocked_ips = []) := by
  constructor
  · have hfire := evalEntry_fire T true (fun _ => false) now (EvalAcc.mk [] [] [])
      (A, now - T) hA (by show now - (now - T) ≥ T; omega) (by simp)
    constructor
    · show countBlock A (evalEntry T true (fun _ => false) now (EvalAcc.mk [] [] [])
        (A, now - T)).actions = 1
      rw [hfire]
      show countBlock A ((([] : List Action) ++ [Action.notifyIdle A, Action.soundAlert A])
        ++ (if true then [Action.blockCmd A] else [])) = 1
      rw [countBlock_append, countBlock_append, countBlock_pair, countBlock_ite_self]
      rfl
    · show A ∈ (evalEntry T true (fun _ => false) now (EvalAcc.mk [] [] [])
        (A, now - T)).blocked
      rw [hfire]
      show A ∈ ([] : List String) ++ [A]
      simp
  · intro last hlt
    have hnofire := evalEntry_nofire T true (fun _ => false) now (EvalAcc.mk [] [] [])
      (A, last) (fun hc => absurd hc.1 (by show ¬ now - last ≥ T; omega))
    constructor
    · show (evalEntry T true (fun _ => false) now (EvalAcc.mk [] [] []) (A, last)).actions = []
      rw [hnofire]
    · show (evalEntry T true (fun _ => false) now (EvalAcc.mk [] [] []) (A, last)).blocked = []
      rw [hnofire]

/-- Witness for C3 with threshold 10 at evaluation time 50: last seen 40
(exactly 10 idle) is blocked once; last seen 45 (5 idle) is untouched. -/
theorem C3_witness :
    (countBlock "10.0.0.5" (idle_checker_cycle 10 true (fun _ => false) [] 50
        (EngineState.mk [("10.0.0.5", 50 - 10)] [])).2.1 = 1 ∧
      "10.0.0.5" ∈ (idle_checker_cycle 10 true (fun _ => false) [] 50
        (EngineState.mk [("10.0.0.5", 50 - 10)] [])).1.blocked_ips) ∧
    ((idle_checker_cycle 10 true (fun _ => false) [] 50
        (EngineState.mk [("10.0.0.5", 45)] [])).2.1 = [] ∧
      (idle_checker_cycle 10 true (fun _ => false) [] 50
        (EngineState.mk [("10.0.0.5", 45)] [])).1.blocked_ips = []) :=
  have h := C3_idle_boundary 10 50 "10.0.0.5" (by decide)
  ⟨h.1, h.2 45 (by decide)⟩

/-- C5: a newly discovered address is seeded with the cycle time as
`last_seen`, and the evaluation of the very same cycle classifies it as
active for any positive threshold: no action is emitted about it and it is
not blocked. -/
theorem C5_fresh_seed_not_flagged
    (T now : Int) (A : String) (s : EngineState) (d : List String) (bf : String → Bool)
    (hT : 0 < T) (hA : A ≠ "255.255.255.255") (hd : A ∈ d)
    (habs : lookupLast s.last_activity A = none)
    (hnb : A ∉ s.blocked_ips) :
    lookupLast (idle_checker_cycle T true bf d now s).1.last_activity A = some now ∧
    actionsFor A (idle_checker_cycle T true bf d now s).2.1 = [] ∧
    A ∉ (idle_checker_cycle T true bf d now s).1.blocked_ips := by
  have htime : ∀ t', (A, t') ∈ (seedFold now (s, []) d).1.last_activity → t' = now :=
    seedFold_entry_time now d (s, []) A
      (fun t' hm => absurd hm (not_mem_of_lookupLast_none s.last_activity A t' habs))
  have hnc : ∀ t', (A, t') ∈ (seedFold now (s, []) d).1.last_activity → ¬(now - t' ≥ T) := by
    intro t' hm
    rw [htime t' hm]
    omega
  have hnb2 : A ∉ (EvalAcc.mk (seedFold now (s, []) d).1.blocked_ips ([] : List Action)
      ([] : List String)).blocked := by
    show A ∉ (seedFold now (s, []) d).1.blocked_ips
    rw [seedFold_blocked]
    exact hnb
  have hmain := evalFold_noCross T true bf now (seedFold now (s, []) d).1.last_activity
    (EvalAcc.mk (seedFold now (s, []) d).1.blocked_ips [] []) A hnc hnb2
  refine ⟨?_, ?_, ?_⟩
  · rw [cycle_last]
    exact seedFold_lookupLast_absent now d (s, []) A hd hA habs
  · rw [cycle_actions, hmain.2]
    rfl
  · rw [cycle_blocked]
    exact hmain.1

/-- Witness for C5: a fresh discovery of 10.0.0.9 at time 7 against threshold
10 seeds it at 7 and takes no action against it in the same cycle. -/
theorem C5_witness :
    lookupLast (idle_checker_cycle 10 true (fun _ => false) ["10.0.0.9"] 7
      (EngineState.mk [] [])).1.last_activity "10.0.0.9" = some 7 ∧
    actionsFor "10.0.0.9" (idle_checker_cycle 10 true (fun _ => false) ["10.0.0.9"] 7
      (EngineState.mk [] [])).2.1 = [] ∧
    "10.0.0.9" ∉ (idle_checker_cycle 10 true (fun _ => false) ["10.0.0.9"] 7
      (EngineState.mk [] [])).1.blocked_ips :=
  C5_fresh_seed_not_flagged 10 7 "10.0.0.9" (EngineState.mk [] []) ["10.0.0.9"]
    (fun _ => false) (by decide) (by decide) (by decide) (by decide) (by decide)

/-- C6: when the firewall block command for a crossing address fails, the
resulting engine state and emitted actions are the same as in a cycle whose
firewall commands all succeed (the loop does not crash and continues with
the remaining addresses), the failure is logged with the address, and the
address is nevertheless added to the blocked set. -/
theorem C6_firewall_failure_tolerated
    (T now t : Int) (A : String) (s : EngineState) (d : List String) (bf : String → Bool)
    (hA : A ≠ "255.255.255.255")
    (hmem : (A, t) ∈ s.last_activity)
    (hidle : now - t ≥ T)
    (hnb : A ∉ s.blocked_ips)
    (hbf : bf A = true) :
    (idle_checker_cycle T true bf d now s).1 =
      (idle_checker_cycle T true (fun _ => false) d now s).1 ∧
    (idle_checker_cycle T true bf d now s).2.1 =
      (idle_checker_cycle T true (fun _ => false) d now s).2.1 ∧
    ("[ERROR] Failed to block " ++ A) ∈ (idle_checker_cycle T true bf d now s).2.2 ∧
    A ∈ (idle_checker_cycle T true bf d now s).1.blocked_ips := by
  have hinv := evalFold_bf_inv T true bf (fun _ => false) now
    (seedFold now (s, []) d).1.last_activity
    (EvalAcc.mk (seedFold now (s, []) d).1.blocked_ips [] [])
    (EvalAcc.mk (seedFold now (s, []) d).1.blocked_ips [] []) rfl rfl
  have hmem2 : (A, t) ∈ (seedFold now (s, []) d).1.last_activity :=
    seedFold_mem now d (s, []) (A, t) hmem
  have hin := evalFold_crossing_blocked T true bf now (seedFold now (s, []) d).1.last_activity
    (EvalAcc.mk (seedFold now (s, []) d).1.blocked_ips [] []) A t hmem2 hA hidle
  refine ⟨?_, ?_, ?_, ?_⟩
  · rw [cycle_state, cycle_state, hinv.1]
  · rw [cycle_actions, cycle_actions]
    exact hinv.2
  · rw [cycle_logs]
    refine List.mem_append_right _ ?_
    refine evalFold_err_logged T bf now A hbf (seedFold now (s, []) d).1.last_activity
      (EvalAcc.mk (seedFold now (s, []) d).1.blocked_ips [] []) ?_ hin
    intro hm
    rw [show (EvalAcc.mk (seedFold now (s, []) d).1.blocked_ips ([] : List Action)
      ([] : List String)).blocked = (seedFold now (s, []) d).1.blocked_ips from rfl,
      seedFold_blocked] at hm
    exact absurd hm hnb
  · rw [cycle_blocked]
    exact hin

/-- Witness for C6: a failing firewall command for 10.0.0.5 leaves the same
state as a succeeding one, is logged, and the address ends up blocked. -/
theorem C6_witness :
    (idle_checker_cycle 10 true (fun _ => true) [] 20
      (EngineState.mk [("10.0.0.5", 5)] [])).1 =
    (idle_checker_cycle 10 true (fun _ => false) [] 20
      (EngineState.mk [("10.0.0.5", 5)] [])).1 ∧
    ("[ERROR] Failed to block " ++ "10.0.0.5") ∈ (idle_checker_cycle 10 true (fun _ => true) [] 20
      (EngineState.mk [("10.0.0.5", 5)] [])).2.2 ∧
    "10.0.0.5" ∈ (idle_checker_cycle 10 true (fun _ => true) [] 20
      (EngineState.mk [("10.0.0.5", 5)] [])).1.blocked_ips :=
  have h := C6_firewall_failure_tolerated 10 20 5 "10.0.0.5"
    (EngineState.mk [("10.0.0.5", 5)] []) [] (fun _ => true)
    (by decide) (by decide) (by decide) (by decide) rfl
  ⟨h.1, h.2.2.1, h.2.2.2⟩

end FirewallGama
